import Mathlib

/-!
# sqsconsumer example supervisor: a verification development

The embedded program is `example/main.go`: the `main` supervisor with its
interrupt observer and consumer goroutines, the example handler
`processMessage`, and the metrics sampler of `exposeMetrics`.

Sequential code (`processMessage`, one sampler tick) is embedded as pure
functions whose nondeterministic inputs (the random draw, the sampled clock)
are explicit arguments.  The concurrent part of `main` is embedded as a step
function on an explicit state: one program counter per goroutine, the `term`
channel buffer, the set of cancelled contexts and the list of observable
events, newest first.  An execution is a list of scheduler actions.
-/

namespace SqsConsumer

/-! ## Contexts (`golang.org/x/net/context`) -/

/-- A context is the background context or a cancellable child of a parent;
`id` names the cancel function returned by `context.WithCancel`. -/
inductive Context where
  | background : Context
  | withCancel (id : Nat) (parent : Context) : Context
  deriving DecidableEq, Repr

/-- The error kinds `ctx.Err()` can report. -/
inductive CtxError where
  | canceled : CtxError
  | deadlineExceeded : CtxError
  deriving DecidableEq, Repr

/-- Whether `ctx.Done()` is closed, given the ids whose cancel function has
run: a child is done when it was cancelled itself or its parent is done; the
background context is never done. -/
def Context.done (cancelled : List Nat) : Context → Bool
  | .background => false
  | .withCancel id parent => cancelled.contains id || parent.done cancelled

/-- What a handler invocation can see of its context: the value of
`ctx.Err()`, which is non-nil exactly when `ctx.Done()` is closed. -/
structure CtxView where
  err : Option CtxError
  deriving DecidableEq, Repr

/-- Whether the `<-ctx.Done()` case of a `select` is ready. -/
def CtxView.isDone (ctx : CtxView) : Bool := ctx.err.isSome

/-- The view a handler has of a cancellable context. -/
def Context.view (cancelled : List Nat) (ctx : Context) : CtxView :=
  if ctx.done cancelled then ⟨some .canceled⟩ else ⟨none⟩

/-! ## `processMessage` -/

/-- A Go `error` value returned by the handler: one built by `fmt.Errorf`
or the context's own error. -/
inductive HandlerError where
  | processing (text : String) : HandlerError
  | context (e : CtxError) : HandlerError
  deriving DecidableEq, Repr

/-- The line written by `log.Printf("MSG: '%s'", msg)`, the "work". -/
def workLine (msg : String) : String := "MSG: '" ++ msg ++ "'"

/-- The text built by `fmt.Errorf("a random error processing msg: %s", msg)`. -/
def randomErrorText (msg : String) : String := "a random error processing msg: " ++ msg

/-- Embedding of `processMessage(ctx, msg)`; `r` is the value drawn by
`rand.Intn(10)`.  The result is the lines logged, in order, and the returned
error (`none` for `nil`). -/
def processMessage (ctx : CtxView) (msg : String) (r : Nat) : List String × Option HandlerError :=
  let log₀ := ["Starting processMessage for msg " ++ msg]
  if r < 3 then
    (log₀, some (.processing (randomErrorText msg)))
  else if ctx.isDone then
    (log₀ ++ ["Context done so aborting processing message: " ++ msg], ctx.err.map .context)
  else
    (log₀ ++ [workLine msg], none)

/-- The work was performed: the handler logged the message line. -/
def performedWork (msg : String) (out : List String × Option HandlerError) : Prop :=
  workLine msg ∈ out.1

instance (msg : String) (out : List String × Option HandlerError) :
    Decidable (performedWork msg out) := by
  unfold performedWork; infer_instance

/-! ## Middleware chain -/

/-- The queue service value returned by `SQSServiceForRegionAndQueue`. -/
structure Service where
  region : String
  queue : String
  deriving DecidableEq, Repr

/-- The decorators the supervisor handles.  Their bodies live in the
`sqsconsumer` package; here a decorator is identified by its constructor call.
`other` stands for any further decorator the default stack may hold. -/
inductive Decorator where
  | deleteOnSuccess (ctx : Context) (svc : Service) : Decorator
  | workerPool (numHandlers : Nat) : Decorator
  | trackMetrics (success fail timing : String) : Decorator
  | other (name : String) : Decorator
  deriving DecidableEq, Repr

/-- A handler value: the base function `processMessage` or a decorator
applied to an inner handler. -/
inductive Handler where
  | processMessage : Handler
  | decorated (d : Decorator) (inner : Handler) : Handler
  deriving DecidableEq, Repr

/-- Modelled from the spec: `sqsconsumer.ApplyDecoratorsToHandler`, whose body
is not part of the example program.  The decorators are folded right-to-left
over the base handler, so that the first decorator of the list is the
outermost wrapper: `[D1, D2, D3]` yields `D1(D2(D3(base)))`. -/
def ApplyDecoratorsToHandler (base : Handler) (ds : List Decorator) : Handler :=
  ds.foldr Handler.decorated base

/-- The decorator that directly wraps the base handler, if any. -/
def Handler.innermost : Handler → Option Decorator
  | .processMessage => none
  | .decorated d .processMessage => some d
  | .decorated _ inner => inner.innermost

/-- The decorators of a handler, outermost first. -/
def Handler.layers : Handler → List Decorator
  | .processMessage => []
  | .decorated d inner => d :: inner.layers

/-- Whether a decorator is a deletion decorator. -/
def Decorator.isDeletion : Decorator → Bool
  | .deleteOnSuccess _ _ => true
  | _ => false

/-! ## The supervisor `main` -/

/-- What the program takes from its surroundings: the fetcher count (the
constant `numFetchers`, which the source sets to 1 and both loops of `main`
read), the error of `SQSServiceForRegionAndQueue` (`none` for `nil`), and the
list returned by `sqsconsumer.DefaultMiddlewareStack`, whose body is not part
of the example program. -/
structure Env where
  numFetchers : Nat
  svcErr : Option String
  defaultStack : Context → Service → Nat → List Decorator

/-- `region` and `queueName` of `main`. -/
def service : Service := ⟨"us-east-1", "push_gcm"⟩

/-- `numHandlers` of `main`. -/
def numHandlers : Nat := 3

/-- `fetchCtx`: `context.WithCancel(context.Background())`, cancel id 0. -/
def fetchCtx : Context := .withCancel 0 .background

/-- `delCtx`: `context.WithCancel(context.Background())`, cancel id 1. -/
def delCtx : Context := .withCancel 1 .background

/-- `track`: `TrackMetricsMiddleware(ms, mf, mt)` with the three names built
by `fmt.Sprintf` from the queue name. -/
def track : Decorator :=
  .trackMetrics (service.queue ++ ".success") (service.queue ++ ".fail") (service.queue ++ ".time")

/-- The slice `middleware` after `append(middleware, track)`. -/
def middlewareStack (env : Env) : List Decorator :=
  env.defaultStack delCtx service numHandlers ++ [track]

/-- The log line of the interrupt observer. -/
def startShutdownLine : String := "Starting graceful shutdown"

/-- The last log line of `main`. -/
def shutdownCompleteLine : String := "Shutdown complete"

/-- Program counter of the `main` goroutine: the statement it executes next. -/
inductive MainPc where
  | setupService : MainPc
  | withCancelFetch : MainPc
  | notify : MainPc
  | goObserver : MainPc
  | metrics : MainPc
  | middleware : MainPc
  | wrap : MainPc
  | logStarting : MainPc
  | launch (i : Nat) : MainPc
  | wait (i : Nat) : MainPc
  | cancelDelete : MainPc
  | logComplete : MainPc
  | ret : MainPc
  deriving DecidableEq, Repr

/-- Program counter of the interrupt observer goroutine. -/
inductive ObserverPc where
  | notStarted : ObserverPc
  | waiting : ObserverPc
  | logging : ObserverPc
  | cancelling : ObserverPc
  | finished : ObserverPc
  deriving DecidableEq, Repr

/-- The value built by `sqsconsumer.NewConsumer(s, handler)`. -/
structure Consumer where
  svc : Service
  handler : Handler
  deriving DecidableEq, Repr

/-- Program counter of one consumer goroutine: created by `go`, inside
`c.Run(ctx)`, blocked on `e <- err`, or returned. -/
inductive ConsumerPc where
  | spawned : ConsumerPc
  | running (c : Consumer) (ctx : Context) : ConsumerPc
  | sending (err : Option String) : ConsumerPc
  | finished : ConsumerPc
  deriving DecidableEq, Repr

/-- Observable events of an execution. -/
inductive Event where
  | log (line : String) : Event
  | cancelFetch : Event
  | cancelDelete : Event
  | compose (h : Handler) : Event
  | spawn (i : Nat) : Event
  | recv : Event
  deriving DecidableEq, Repr

/-- How the process ended. -/
inductive Halt where
  | returned : Halt
  | osExit (code : Nat) : Halt
  | killed : Halt
  deriving DecidableEq, Repr

/-- Signals the operating system can deliver. -/
inductive Signal where
  | interrupt : Signal
  | kill : Signal
  deriving DecidableEq, Repr

/-- State of the running process.  `term` counts the signals buffered in the
channel `term` (capacity 1); `cancelled` holds the ids of the cancel functions
that have run; `trace` lists the events, newest first. -/
structure State where
  mainPc : MainPc
  observer : ObserverPc
  consumers : List ConsumerPc
  notifying : Bool
  term : Nat
  cancelled : List Nat
  middleware : List Decorator
  handler : Option Handler
  trace : List Event
  halted : Option Halt
  deriving DecidableEq, Repr

/-- The process at the first statement of `main`. -/
def init : State :=
  { mainPc := .setupService, observer := .notStarted, consumers := [], notifying := false,
    term := 0, cancelled := [], middleware := [], handler := none, trace := [], halted := none }

/-- One scheduler choice: the next statement of `main`, a signal delivered by
the operating system, the next statement of the observer, consumer `i`
entering `Run`, `Run` of consumer `i` returning `err`, or the unbuffered
channel `e` passing consumer `i`'s value to the waiting `main`. -/
inductive Action where
  | main : Action
  | signal (sig : Signal) : Action
  | observer : Action
  | consumerStart (i : Nat) : Action
  | runReturn (i : Nat) (err : Option String) : Action
  | handoff (i : Nat) : Action
  deriving DecidableEq, Repr

/-- The next statement of `main`.  A receive on `e` is not taken here: it
needs a sender (see `stepHandoff`), so `main` blocks in the wait loop while
signals are outstanding. -/
def stepMain (env : Env) (s : State) : Option State :=
  match s.mainPc with
  | .setupService =>
    match env.svcErr with
    | some err =>
      some { s with
        trace := .log ("Could not set up queue 'push_gcm': " ++ err) :: s.trace,
        halted := some (.osExit 1) }
    | none => some { s with mainPc := .withCancelFetch }
  | .withCancelFetch => some { s with mainPc := .notify }
  | .notify => some { s with notifying := true, mainPc := .goObserver }
  | .goObserver => some { s with observer := .waiting, mainPc := .metrics }
  | .metrics =>
    some { s with trace := .log "HTTP expvars on port 8123" :: s.trace, mainPc := .middleware }
  | .middleware => some { s with middleware := middlewareStack env, mainPc := .wrap }
  | .wrap =>
    let h := ApplyDecoratorsToHandler .processMessage s.middleware
    some { s with handler := some h, trace := .compose h :: s.trace, mainPc := .logStarting }
  | .logStarting =>
    some { s with trace := .log "Starting queue consumers" :: s.trace, mainPc := .launch 0 }
  | .launch i =>
    if i < env.numFetchers then
      some { s with
        consumers := s.consumers ++ [.spawned],
        trace := .spawn i :: s.trace,
        mainPc := .launch (i + 1) }
    else some { s with mainPc := .wait 0 }
  | .wait i =>
    if i < env.numFetchers then none else some { s with mainPc := .cancelDelete }
  | .cancelDelete =>
    some { s with
      cancelled := 1 :: s.cancelled,
      trace := .cancelDelete :: s.trace,
      mainPc := .logComplete }
  | .logComplete =>
    some { s with trace := .log shutdownCompleteLine :: s.trace, mainPc := .ret }
  | .ret => some { s with halted := some .returned }

/-- A signal reaches the process.  `kill` cannot be caught; an interrupt
terminates the process until `signal.Notify` has run, and afterwards is put
in `term` when the buffer has room and dropped otherwise. -/
def stepSignal (s : State) (sig : Signal) : State :=
  match sig with
  | .kill => { s with halted := some .killed }
  | .interrupt =>
    if s.notifying then
      if s.term < 1 then { s with term := s.term + 1 } else s
    else { s with halted := some .killed }

/-- The next statement of the observer goroutine: `<-term`, the log line,
`cancelFetch()`. -/
def stepObserver (s : State) : Option State :=
  match s.observer with
  | .notStarted => none
  | .waiting =>
    if 0 < s.term then some { s with term := s.term - 1, observer := .logging } else none
  | .logging =>
    some { s with trace := .log startShutdownLine :: s.trace, observer := .cancelling }
  | .cancelling =>
    some { s with
      cancelled := 0 :: s.cancelled,
      trace := .cancelFetch :: s.trace,
      observer := .finished }
  | .finished => none

/-- Consumer goroutine `i` builds its consumer from the captured `s` and
`handler` and calls `c.Run(fetchCtx)`. -/
def stepConsumerStart (s : State) (i : Nat) : Option State :=
  match s.consumers[i]?, s.handler with
  | some .spawned, some h =>
    some { s with consumers := s.consumers.set i (.running ⟨service, h⟩ fetchCtx) }
  | _, _ => none

/-- Modelled from the spec: the return of `Consumer.Run`, whose body is not
part of the example program.  A consumer stops cleanly (`nil`) only once its
context is cancelled, and may stop early with a terminal error at any time. -/
def stepRunReturn (s : State) (i : Nat) (err : Option String) : Option State :=
  match s.consumers[i]? with
  | some (.running _ ctx) =>
    if err.isSome || ctx.done s.cancelled then
      some { s with consumers := s.consumers.set i (.sending err) }
    else none
  | _ => none

/-- The send `e <- err` of consumer `i` meets the receive `<-e` of the wait
loop; `main` drops the received value. -/
def stepHandoff (env : Env) (s : State) (i : Nat) : Option State :=
  match s.mainPc, s.consumers[i]? with
  | .wait k, some (.sending _) =>
    if k < env.numFetchers then
      some { s with
        consumers := s.consumers.set i .finished,
        trace := .recv :: s.trace,
        mainPc := .wait (k + 1) }
    else none
  | _, _ => none

/-- One step of the process; `none` when the chosen action is not enabled.
Nothing runs once the process has ended. -/
def step (env : Env) (s : State) (a : Action) : Option State :=
  if s.halted.isSome then none
  else
    match a with
    | .main => stepMain env s
    | .signal sig => some (stepSignal s sig)
    | .observer => stepObserver s
    | .consumerStart i => stepConsumerStart s i
    | .runReturn i err => stepRunReturn s i err
    | .handoff i => stepHandoff env s i

/-- Run a schedule from a state. -/
def run (env : Env) : State → List Action → Option State
  | s, [] => some s
  | s, a :: rest => (step env s a).bind fun s' => run env s' rest

/-- Run a schedule from the start of `main`. -/
def exec (env : Env) (acts : List Action) : Option State := run env init acts

/-- Whether the fetch scope is cancelled. -/
def State.fetchDone (s : State) : Bool := fetchCtx.done s.cancelled

/-- Whether the delete scope is cancelled. -/
def State.deleteDone (s : State) : Bool := delCtx.done s.cancelled

/-- Number of completion signals `main` has received from `e`. -/
def State.received (s : State) : Nat := s.trace.count .recv

/-- Number of calls of `cancelFetch`. -/
def State.cancelFetchCalls (s : State) : Nat := s.trace.count .cancelFetch

/-- Number of consumer goroutines launched. -/
def State.launched (s : State) : Nat := s.consumers.length

/-- Whether an event is a handler composition. -/
def Event.isCompose : Event → Bool
  | .compose _ => true
  | _ => false

/-- Number of times the decorated handler was composed. -/
def State.composeCount (s : State) : Nat := s.trace.countP Event.isCompose

/-- The lines logged, oldest first. -/
def State.logLines (s : State) : List String :=
  s.trace.reverse.filterMap fun e => match e with
    | .log line => some line
    | _ => none

/-- What the process shows of a run as a whole: how it ended, what it
logged, and whether each scope ended cancelled. -/
def overallResult (s : State) : Option Halt × List String × Bool × Bool :=
  (s.halted, s.logLines, s.fetchDone, s.deleteDone)

/-- Whether `main` has left the launch loop. -/
def MainPc.pastLaunch : MainPc → Bool
  | .wait _ | .cancelDelete | .logComplete | .ret => true
  | _ => false

/-! ## The metrics sampler of `exposeMetrics` -/

/-- The two conversions to `float64` the sampler uses, over any carrier `F`
of gauge values: `float64(n)` and `Duration.Seconds`. -/
structure FloatOps (F : Type) where
  ofInt : Int → F
  seconds : Int → F

/-- The expvar gauges by name. -/
abbrev Gauges (F : Type) := String → Option F

/-- The method `Gauge.Set` of the gauge registered under `name`: the value is
replaced. -/
def Gauges.set {F : Type} (g : Gauges F) (name : String) (v : F) : Gauges F :=
  fun n => if n = name then some v else g n

/-- What one tick reads: `runtime.NumGoroutine()` and the clock, in
nanoseconds. -/
structure Sample where
  numGoroutine : Nat
  now : Int
  deriving DecidableEq, Repr

/-- The body of the sampler loop for one tick; `start` is `time.Now()` taken
when `exposeMetrics` was called. -/
def samplerTick {F : Type} (ops : FloatOps F) (start : Int) (g : Gauges F) (sm : Sample) :
    Gauges F :=
  (g.set "total_goroutines" (ops.ofInt sm.numGoroutine)).set
    "process_uptime_seconds" (ops.seconds (sm.now - start))

/-- The sampler loop over the ticks delivered so far. -/
def runSampler {F : Type} (ops : FloatOps F) (start : Int) (g : Gauges F) (ticks : List Sample) :
    Gauges F :=
  ticks.foldl (samplerTick ops start) g

/-! ## Invariant of the supervisor -/

/-- The handler `main` composes. -/
def mainHandler (env : Env) : Handler :=
  ApplyDecoratorsToHandler .processMessage (middlewareStack env)

/-- Completion signals received when `main` stands at a program counter. -/
def MainPc.recvd (n : Nat) : MainPc → Nat
  | .wait k => k
  | .cancelDelete | .logComplete | .ret => n
  | _ => 0

/-- Consumers launched when `main` stands at a program counter. -/
def MainPc.spawnedCount (n : Nat) : MainPc → Nat
  | .launch i => i
  | .wait _ | .cancelDelete | .logComplete | .ret => n
  | _ => 0

/-- The loop counters never pass the fetcher count. -/
def MainPc.bounded (n : Nat) : MainPc → Prop
  | .launch i => i ≤ n
  | .wait k => k ≤ n
  | _ => True

/-- Whether `append(middleware, track)` has run. -/
def MainPc.stacked : MainPc → Bool
  | .setupService | .withCancelFetch | .notify | .goObserver | .metrics | .middleware => false
  | _ => true

/-- Whether `ApplyDecoratorsToHandler` has run. -/
def MainPc.composed : MainPc → Bool
  | .setupService | .withCancelFetch | .notify | .goObserver | .metrics | .middleware
  | .wrap => false
  | _ => true

/-- Whether the observer goroutine has been started. -/
def MainPc.observerSpawned : MainPc → Bool
  | .setupService | .withCancelFetch | .notify | .goObserver => false
  | _ => true

/-- Whether `cancelDelete()` has run. -/
def MainPc.deleteCancelled : MainPc → Bool
  | .logComplete | .ret => true
  | _ => false

/-- Whether the last log line of `main` has been written. -/
def MainPc.completeLogged : MainPc → Bool
  | .ret => true
  | _ => false

/-- Whether the observer has written its log line. -/
def ObserverPc.startLogged : ObserverPc → Bool
  | .cancelling | .finished => true
  | _ => false

/-- Whether the observer has called `cancelFetch()`. -/
def ObserverPc.cancelledFetch : ObserverPc → Bool
  | .finished => true
  | _ => false

/-- What must already have happened when an event occurs, `older` being the
events before it: `cancelFetch` comes after the observer's log line,
`cancelDelete` after `n` received completion signals, the last log line of
`main` after both, and a launch after exactly one composition of the
handler. -/
def Event.precondition (n : Nat) (older : List Event) : Event → Prop
  | .cancelFetch => Event.log startShutdownLine ∈ older
  | .cancelDelete => older.count .recv = n
  | .log line =>
    line = shutdownCompleteLine → older.count .recv = n ∧ Event.cancelDelete ∈ older
  | .spawn _ => older.countP Event.isCompose = 1
  | _ => True

/-- Every event of a trace (newest first) met its precondition. -/
def Ordered (n : Nat) : List Event → Prop
  | [] => True
  | e :: older => e.precondition n older ∧ Ordered n older

/-- The inductive invariant of the process: the trace, the cancelled scopes,
the handler and the consumers agree with the program counters. -/
structure Inv (env : Env) (s : State) : Prop where
  recv : s.trace.count .recv = s.mainPc.recvd env.numFetchers
  launched : s.consumers.length = s.mainPc.spawnedCount env.numFetchers
  bounded : s.mainPc.bounded env.numFetchers
  compose : s.trace.countP Event.isCompose = if s.mainPc.composed then 1 else 0
  composeEv : ∀ h, Event.compose h ∈ s.trace → h = mainHandler env
  handler : s.handler = if s.mainPc.composed then some (mainHandler env) else none
  middleware : s.middleware = if s.mainPc.stacked then middlewareStack env else []
  consumers : ∀ c ctx, ConsumerPc.running c ctx ∈ s.consumers →
    c = ⟨service, mainHandler env⟩ ∧ ctx = fetchCtx
  delCancelled : 1 ∈ s.cancelled ↔ s.mainPc.deleteCancelled = true
  delEvent : Event.cancelDelete ∈ s.trace ↔ s.mainPc.deleteCancelled = true
  complete : Event.log shutdownCompleteLine ∈ s.trace ↔ s.mainPc.completeLogged = true
  startLogged : Event.log startShutdownLine ∈ s.trace ↔ s.observer.startLogged = true
  fetchCancelled : 0 ∈ s.cancelled ↔ s.observer.cancelledFetch = true
  fetchCalls : s.trace.count .cancelFetch = if s.observer.cancelledFetch then 1 else 0
  ordered : Ordered env.numFetchers s.trace
  returned : s.halted = some .returned → s.mainPc = .ret
  observerPc : s.observer = .notStarted ↔ s.mainPc.observerSpawned = false

/-! ## Forgetting consumer outcomes -/

/-- A consumer program counter with the value it is sending erased. -/
def ConsumerPc.forget : ConsumerPc → ConsumerPc
  | .sending _ => .sending none
  | pc => pc

/-- A state with the consumers' outcomes erased. -/
def State.forget (s : State) : State :=
  { s with consumers := s.consumers.map ConsumerPc.forget }

/-- An action with the outcome of `Run` erased. -/
def Action.forget : Action → Action
  | .runReturn i _ => .runReturn i none
  | a => a

/-- Whether an action is `Run` returning a non-nil error. -/
def Action.isErrorReturn : Action → Bool
  | .runReturn _ (some _) => true
  | _ => false

/-- The state a schedule reaches, or the initial state when the schedule
cannot be run. -/
def stateAt (env : Env) (acts : List Action) : State := (exec env acts).getD init

/-! ## Concrete inputs -/

/-- The schedule in which `main` runs alone up to the wait loop. -/
def toWait (n : Nat) : List Action := List.replicate (9 + n) .main

/-- A first interrupt and the three statements of the observer. -/
def interruptAndObserve : List Action :=
  [.signal .interrupt, .observer, .observer, .observer]


/-- A default stack with the deletion decorator outermost and the worker pool
inside it. -/
def sampleStack (ctx : Context) (svc : Service) (n : Nat) : List Decorator :=
  [.deleteOnSuccess ctx svc, .workerPool n]

/-- Two fetchers, a reachable queue. -/
def env2 : Env := ⟨2, none, sampleStack⟩

/-- One fetcher, as in the source, and a reachable queue. -/
def env1 : Env := ⟨1, none, sampleStack⟩

def fullRun2 : List Action :=
  toWait 2 ++ [.consumerStart 0, .consumerStart 1, .runReturn 1 (some "queue unreachable")] ++
    interruptAndObserve ++
    [.signal .interrupt, .signal .interrupt, .runReturn 0 none, .handoff 1, .handoff 0,
      .main, .main, .main, .main]

/-- A schedule that stops when the observer is about to call `cancelFetch`. -/
def beforeCancelFetch : List Action :=
  toWait 1 ++ [.consumerStart 0, .signal .interrupt, .observer, .observer]

/-- A complete run of one fetcher whose `Run` returns the given outcome after
the interrupt. -/
def runWithOutcome (err : Option String) : List Action :=
  toWait 1 ++ [.consumerStart 0] ++ interruptAndObserve ++
    [.runReturn 0 err, .handoff 0, .main, .main, .main, .main]

/-- A complete run of one fetcher whose `Run` stops early with an error and
in which the interrupt arrives only after `main` has logged its last line:
the observer runs its three statements before `main` returns. -/
def lateInterruptRun : List Action :=
  toWait 1 ++ [.consumerStart 0, .runReturn 0 (some "queue unreachable"), .handoff 0,
    .main, .main, .main] ++ interruptAndObserve ++ [.main]

end SqsConsumer

/-! # Theorems -/

namespace SqsConsumer

/-! ## The invariant holds in every reachable state -/

theorem start_ne_setupLine (err : String) :
    "Starting graceful shutdown" ≠ "Could not set up queue 'push_gcm': " ++ err := by
  intro h
  have h2 := congrArg String.data h
  simp [String.data_append] at h2

theorem complete_ne_setupLine (err : String) :
    "Shutdown complete" ≠ "Could not set up queue 'push_gcm': " ++ err := by
  intro h
  have h2 := congrArg String.data h
  simp [String.data_append] at h2

theorem setupLine_ne_complete (err : String) :
    "Could not set up queue 'push_gcm': " ++ err ≠ "Shutdown complete" :=
  fun h => complete_ne_setupLine err h.symm

theorem inv_init (env : Env) : Inv env init := by
  constructor <;> simp [init, MainPc.recvd, MainPc.spawnedCount, MainPc.bounded, MainPc.composed,
    MainPc.stacked, MainPc.deleteCancelled, MainPc.completeLogged, ObserverPc.startLogged,
    ObserverPc.cancelledFetch, Ordered, MainPc.observerSpawned]

set_option maxHeartbeats 4000000 in
theorem stepMain_inv (env : Env) (s s' : State) (hinv : Inv env s) (hh : s.halted = none)
    (hstep : stepMain env s = some s') : Inv env s' := by
  obtain ⟨h1, h2, h3, h4, h5, h6, h7, h8, h9, h10, h11, h12, h13, h14, h15, h16, h17⟩ := hinv
  obtain ⟨pc, ob, cs, nt, tm, cn, mw, hd, tr, hl⟩ := s
  simp only at h1 h2 h3 h4 h5 h6 h7 h8 h9 h10 h11 h12 h13 h14 h15 h16 h17 hh
  subst hh
  unfold stepMain at hstep
  cases pc <;> simp only at hstep <;> (try split at hstep) <;>
    simp only [Option.some.injEq, reduceCtorEq] at hstep <;> subst hstep <;>
    constructor <;> simp only []
  all_goals first
    | assumption
    | (simp [MainPc.recvd, MainPc.spawnedCount, MainPc.bounded, MainPc.composed,
      MainPc.stacked, MainPc.deleteCancelled, MainPc.completeLogged, Event.isCompose,
      Ordered, Event.precondition, MainPc.observerSpawned, ObserverPc.startLogged,
      ObserverPc.cancelledFetch, startShutdownLine, shutdownCompleteLine, start_ne_setupLine,
      complete_ne_setupLine, setupLine_ne_complete] at * <;>
        first | done | assumption | omega | tauto)
    | (have hob : ob = .notStarted := by simpa [MainPc.observerSpawned] using h17
       subst hob
       simp [ObserverPc.startLogged, ObserverPc.cancelledFetch] at * <;>
        first | done | assumption | omega | tauto)

theorem stepSignal_inv (env : Env) (s : State) (sig : Signal) (hinv : Inv env s) :
    Inv env (stepSignal s sig) := by
  obtain ⟨h1, h2, h3, h4, h5, h6, h7, h8, h9, h10, h11, h12, h13, h14, h15, h16, h17⟩ := hinv
  unfold stepSignal
  cases sig <;> simp only
  · split
    · split <;> constructor <;> assumption
    · constructor <;> first | assumption | simp
  · constructor <;> first | assumption | simp

set_option maxHeartbeats 4000000 in
theorem stepObserver_inv (env : Env) (s s' : State) (hinv : Inv env s) (hh : s.halted = none)
    (hstep : stepObserver s = some s') : Inv env s' := by
  obtain ⟨h1, h2, h3, h4, h5, h6, h7, h8, h9, h10, h11, h12, h13, h14, h15, h16, h17⟩ := hinv
  obtain ⟨pc, ob, cs, nt, tm, cn, mw, hd, tr, hl⟩ := s
  simp only at h1 h2 h3 h4 h5 h6 h7 h8 h9 h10 h11 h12 h13 h14 h15 h16 h17 hh
  subst hh
  unfold stepObserver at hstep
  cases ob <;> simp only at hstep <;> (try split at hstep) <;>
    simp only [Option.some.injEq, reduceCtorEq] at hstep <;> subst hstep <;>
    constructor <;> simp only []
  all_goals first
    | assumption
    | (simp [Event.isCompose, Ordered, Event.precondition, ObserverPc.startLogged,
        ObserverPc.cancelledFetch, startShutdownLine, shutdownCompleteLine] at * <;>
        first | done | assumption | omega | tauto)

theorem running_mem_set {cs : List ConsumerPc} {i : Nat} {x : ConsumerPc} {c : Consumer}
    {ctx : Context} (h : ConsumerPc.running c ctx ∈ cs.set i x) :
    ConsumerPc.running c ctx ∈ cs ∨ ConsumerPc.running c ctx = x :=
  List.mem_or_eq_of_mem_set h

theorem stepConsumerStart_inv (env : Env) (s s' : State) (i : Nat) (hinv : Inv env s)
    (hstep : stepConsumerStart s i = some s') : Inv env s' := by
  obtain ⟨h1, h2, h3, h4, h5, h6, h7, h8, h9, h10, h11, h12, h13, h14, h15, h16, h17⟩ := hinv
  unfold stepConsumerStart at hstep
  split at hstep
  · rename_i h hget hhd
    simp only [Option.some.injEq] at hstep
    subst hstep
    constructor <;> simp only [] <;> first
      | assumption
      | simpa using h2
      | skip
    intro c ctx hmem
    rcases running_mem_set hmem with hm | hm
    · exact h8 c ctx hm
    · have hh : h = mainHandler env := by
        rw [h6] at hhd
        split at hhd <;> simp at hhd
        exact hhd.symm
      simp only [ConsumerPc.running.injEq] at hm
      rw [hm.1, hm.2, hh]
      exact ⟨rfl, rfl⟩
  · simp at hstep

theorem stepRunReturn_inv (env : Env) (s s' : State) (i : Nat) (err : Option String)
    (hinv : Inv env s) (hstep : stepRunReturn s i err = some s') : Inv env s' := by
  obtain ⟨h1, h2, h3, h4, h5, h6, h7, h8, h9, h10, h11, h12, h13, h14, h15, h16, h17⟩ := hinv
  unfold stepRunReturn at hstep
  split at hstep
  · split at hstep
    · simp only [Option.some.injEq] at hstep
      subst hstep
      constructor <;> simp only [] <;> first
        | assumption
        | simpa using h2
        | skip
      intro c ctx hmem
      rcases running_mem_set hmem with hm | hm
      · exact h8 c ctx hm
      · simp at hm
    · simp at hstep
  · simp at hstep

theorem stepHandoff_inv (env : Env) (s s' : State) (i : Nat)
    (hinv : Inv env s) (hstep : stepHandoff env s i = some s') : Inv env s' := by
  obtain ⟨h1, h2, h3, h4, h5, h6, h7, h8, h9, h10, h11, h12, h13, h14, h15, h16, h17⟩ := hinv
  obtain ⟨pc, ob, cs, nt, tm, cn, mw, hd, tr, hl⟩ := s
  simp only at h1 h2 h3 h4 h5 h6 h7 h8 h9 h10 h11 h12 h13 h14 h15 h16 h17
  unfold stepHandoff at hstep
  split at hstep
  · split at hstep
    · rename_i k e hpc hget hk
      simp only at hpc hget
      subst hpc
      simp only [Option.some.injEq] at hstep
      subst hstep
      constructor <;> simp only []
      case consumers =>
        intro c ctx hmem
        rcases running_mem_set hmem with hm | hm
        · exact h8 c ctx hm
        · simp at hm
      all_goals first
        | assumption
        | (simp [MainPc.recvd, MainPc.spawnedCount, MainPc.bounded, MainPc.composed,
            MainPc.stacked, MainPc.deleteCancelled, MainPc.completeLogged, Event.isCompose,
            Ordered, Event.precondition, MainPc.observerSpawned, startShutdownLine,
            shutdownCompleteLine] at * <;>
            first | done | assumption | omega | tauto)
    · simp at hstep
  · simp at hstep

theorem step_inv (env : Env) (s s' : State) (a : Action) (hinv : Inv env s)
    (hstep : step env s a = some s') : Inv env s' := by
  unfold step at hstep
  split at hstep
  · simp at hstep
  · rename_i hh
    have hh' : s.halted = none := by
      cases hs : s.halted <;> simp [hs] at hh ⊢
    cases a <;> simp only at hstep
    · exact stepMain_inv env s s' hinv hh' hstep
    · simp only [Option.some.injEq] at hstep
      subst hstep
      exact stepSignal_inv env s _ hinv
    · exact stepObserver_inv env s s' hinv hh' hstep
    · exact stepConsumerStart_inv env s s' _ hinv hstep
    · exact stepRunReturn_inv env s s' _ _ hinv hstep
    · exact stepHandoff_inv env s s' _ hinv hstep

theorem run_inv (env : Env) (acts : List Action) (s s' : State) (hinv : Inv env s)
    (hrun : run env s acts = some s') : Inv env s' := by
  induction acts generalizing s with
  | nil =>
    simp only [run, Option.some.injEq] at hrun
    subst hrun
    exact hinv
  | cons a rest ih =>
    simp only [run] at hrun
    cases hs : step env s a with
    | none => simp [hs] at hrun
    | some t =>
      rw [hs] at hrun
      exact ih t (step_inv env s t a hinv hs) hrun

theorem exec_inv (env : Env) (acts : List Action) (s : State)
    (h : exec env acts = some s) : Inv env s :=
  run_inv env acts init s (inv_init env) h


/-! ## `processMessage` -/

theorem workLine_ne_prefixed (msg : String) (c : Char) (rest : List Char) (hc : c ≠ 'M') :
    workLine msg ≠ String.mk (c :: rest) ++ msg := by
  intro h
  have h2 := congrArg String.data h
  simp [workLine, String.data_append] at h2
  exact hc h2.1.symm

theorem not_performedWork_of_done (ctx : CtxView) (msg : String) (r : Nat)
    (hd : ctx.isDone = true) : ¬ performedWork msg (processMessage ctx msg r) := by
  have h1 : workLine msg ≠ "Starting processMessage for msg " ++ msg :=
    workLine_ne_prefixed msg 'S' "tarting processMessage for msg ".data (by decide)
  have h2 : workLine msg ≠ "Context done so aborting processing message: " ++ msg :=
    workLine_ne_prefixed msg 'C' "ontext done so aborting processing message: ".data (by decide)
  unfold performedWork processMessage
  by_cases hr : r < 3
  · simp [hr, h1]
  · simp [hr, hd, h1, h2]

/-- C6 (as stated, refuted): with the context already cancelled and the
random draw 0, `processMessage` returns the random processing error, not
`ctx.Err()`. -/
theorem C6_counterexample :
    (CtxView.mk (some .canceled)).isDone = true ∧
    (processMessage ⟨some .canceled⟩ "m" 0).2
      = some (.processing "a random error processing msg: m") ∧
    (processMessage ⟨some .canceled⟩ "m" 0).2
      ≠ (CtxView.mk (some .canceled)).err.map HandlerError.context := by
  refine ⟨rfl, ?_, ?_⟩ <;> simp [processMessage, randomErrorText]

/-- C6 (amended): in every invocation whose context has already been
cancelled, `processMessage` does not perform the work and returns a non-nil
error; that error is `ctx.Err()` when the random draw is at least 3, and the
random processing error when the draw is below 3. -/
theorem C6_cancelled_no_work (ctx : CtxView) (msg : String) (r : Nat)
    (hd : ctx.isDone = true) :
    ¬ performedWork msg (processMessage ctx msg r) ∧
    (processMessage ctx msg r).2 ≠ none ∧
    (3 ≤ r → (processMessage ctx msg r).2 = ctx.err.map HandlerError.context) ∧
    (r < 3 → (processMessage ctx msg r).2 = some (.processing (randomErrorText msg))) := by
  refine ⟨not_performedWork_of_done ctx msg r hd, ?_, ?_, ?_⟩
  · obtain ⟨e, he⟩ := Option.isSome_iff_exists.mp hd
    unfold processMessage
    by_cases hr : r < 3
    · simp [hr]
    · simp [hr, hd, he]
  · intro hr
    have : ¬ r < 3 := by omega
    simp [processMessage, this, hd]
  · intro hr
    simp [processMessage, hr]

/-- C6 (amended) at the view of the cancelled fetch scope, message "m" and
draw 7: no work is done and the context error is returned. -/
theorem C6_cancelled_no_work_witness :
    (fetchCtx.view [0]).isDone = true ∧
    ¬ performedWork "m" (processMessage (fetchCtx.view [0]) "m" 7) ∧
    (processMessage (fetchCtx.view [0]) "m" 7).2 = some (.context .canceled) :=
  ⟨by decide, (C6_cancelled_no_work (fetchCtx.view [0]) "m" 7 (by decide)).1,
    (C6_cancelled_no_work (fetchCtx.view [0]) "m" 7 (by decide)).2.2.1 (by decide)⟩

/-- C10: for a draw `r` in `[0,10)`, `processMessage` returns nil exactly
when `r ≥ 3` and the context is not done; when `r < 3` it returns a
processing error whose text contains the message, whatever the context's
state; when `r ≥ 3` and the context is done it returns `ctx.Err()`, which is
non-nil. -/
theorem C10_processMessage_outcome (ctx : CtxView) (msg : String) (r : Nat) (hr : r < 10) :
    ((processMessage ctx msg r).2 = none ↔ (3 ≤ r ∧ ctx.isDone = false)) ∧
    (r < 3 → ∃ text, (processMessage ctx msg r).2 = some (.processing text) ∧
      msg.data <:+: text.data) ∧
    (3 ≤ r → ctx.isDone = true →
      (processMessage ctx msg r).2 = ctx.err.map HandlerError.context ∧
      ∃ e, ctx.err = some e) := by
  refine ⟨?_, ?_, ?_⟩
  · by_cases h3 : r < 3
    · have : ¬ 3 ≤ r := by omega
      simp [processMessage, h3, this]
    · have h3' : 3 ≤ r := by omega
      cases hd : ctx.isDone
      · simp [processMessage, h3, h3', hd]
      · obtain ⟨e, he⟩ := Option.isSome_iff_exists.mp hd
        simp [processMessage, h3, hd, he]
  · intro h3
    refine ⟨randomErrorText msg, by simp [processMessage, h3], ?_⟩
    refine ⟨"a random error processing msg: ".data, [], ?_⟩
    simp [randomErrorText, String.data_append]
  · intro h3 hd
    have : ¬ r < 3 := by omega
    exact ⟨by simp [processMessage, this, hd], Option.isSome_iff_exists.mp hd⟩

/-- C10 at a live context, message "m" and draw 4: the result is nil. -/
theorem C10_processMessage_outcome_witness :
    (4 : Nat) < 10 ∧
    ((processMessage ⟨none⟩ "m" 4).2 = none ↔ ((3 : Nat) ≤ 4 ∧ (CtxView.mk none).isDone = false)) :=
  ⟨by decide, (C10_processMessage_outcome ⟨none⟩ "m" 4 (by decide)).1⟩

/-! ## Middleware chain -/

theorem innermost_foldr_append (ds : List Decorator) (d : Decorator) :
    (ApplyDecoratorsToHandler .processMessage (ds ++ [d])).innermost = some d := by
  induction ds with
  | nil => rfl
  | cons x xs ih =>
    have h : ApplyDecoratorsToHandler .processMessage (x :: xs ++ [d])
        = .decorated x (ApplyDecoratorsToHandler .processMessage (xs ++ [d])) := rfl
    rw [h]
    cases hin : ApplyDecoratorsToHandler .processMessage (xs ++ [d]) with
    | processMessage => rw [hin] at ih; simp [Handler.innermost] at ih
    | decorated y inner => rw [hin] at ih; simpa [Handler.innermost] using ih

theorem layers_apply (ds : List Decorator) :
    (ApplyDecoratorsToHandler .processMessage ds).layers = ds := by
  induction ds with
  | nil => rfl
  | cons x xs ih =>
    show (Handler.decorated x (ApplyDecoratorsToHandler .processMessage xs)).layers = x :: xs
    simp [Handler.layers, ih]

/-- C5 (as stated, refuted): with a default stack holding the deletion
decorator and the worker pool, the decorator directly wrapping the base
handler in the chain `main` assembles is the metrics-tracking decorator, not
the deletion decorator. -/
theorem C5_counterexample :
    (ApplyDecoratorsToHandler .processMessage (middlewareStack env1)).innermost
      ≠ some (.deleteOnSuccess delCtx service) ∧
    (ApplyDecoratorsToHandler .processMessage (middlewareStack env1)).layers
      = [.deleteOnSuccess delCtx service, .workerPool 3, track] := by
  decide

/-- C5 (amended): in the chain `main` assembles, whatever the default stack
holds, the metrics-tracking decorator is the innermost decorator, directly
wrapping the base handler; it is not a deletion decorator, and the decorators
of the default stack (the deletion decorator among them) wrap it from
outside, in list order. -/
theorem C5_track_innermost (env : Env) :
    (ApplyDecoratorsToHandler .processMessage (middlewareStack env)).innermost = some track ∧
    track.isDeletion = false ∧
    (ApplyDecoratorsToHandler .processMessage (middlewareStack env)).layers
      = env.defaultStack delCtx service numHandlers ++ [track] :=
  ⟨innermost_foldr_append _ _, rfl, layers_apply _⟩

/-! ## Metrics sampler -/

theorem samplerTick_goroutines {F : Type} (ops : FloatOps F) (start : Int) (g : Gauges F)
    (sm : Sample) :
    samplerTick ops start g sm "total_goroutines" = some (ops.ofInt sm.numGoroutine) := by
  simp [samplerTick, Gauges.set]

theorem samplerTick_uptime {F : Type} (ops : FloatOps F) (start : Int) (g : Gauges F)
    (sm : Sample) :
    samplerTick ops start g sm "process_uptime_seconds" = some (ops.seconds (sm.now - start)) := by
  simp [samplerTick, Gauges.set]

/-- C9: after every tick of the sampler, whatever the gauges held before and
however many ticks came earlier, `total_goroutines` holds the goroutine count
sampled at that tick and `process_uptime_seconds` the seconds elapsed since
start at that tick; running from any other earlier history gives the same two
values, and the tick touches no other gauge. -/
theorem C9_gauges_hold_last_sample {F : Type} (ops : FloatOps F) (start : Int)
    (g g' : Gauges F) (earlier earlier' : List Sample) (sm : Sample) :
    runSampler ops start g (earlier ++ [sm]) "total_goroutines"
      = some (ops.ofInt sm.numGoroutine) ∧
    runSampler ops start g (earlier ++ [sm]) "process_uptime_seconds"
      = some (ops.seconds (sm.now - start)) ∧
    runSampler ops start g (earlier ++ [sm]) "total_goroutines"
      = runSampler ops start g' (earlier' ++ [sm]) "total_goroutines" ∧
    runSampler ops start g (earlier ++ [sm]) "process_uptime_seconds"
      = runSampler ops start g' (earlier' ++ [sm]) "process_uptime_seconds" ∧
    ∀ name, name ≠ "total_goroutines" → name ≠ "process_uptime_seconds" →
      runSampler ops start g (earlier ++ [sm]) name = runSampler ops start g earlier name := by
  simp only [runSampler, List.foldl_append, List.foldl_cons, List.foldl_nil]
  refine ⟨samplerTick_goroutines .., samplerTick_uptime .., ?_, ?_, ?_⟩
  · rw [samplerTick_goroutines, samplerTick_goroutines]
  · rw [samplerTick_uptime, samplerTick_uptime]
  · intro name h1 h2
    simp [samplerTick, Gauges.set, h1, h2]

theorem ordered_split (n : Nat) (newer older : List Event) (e : Event)
    (h : Ordered n (newer ++ e :: older)) : e.precondition n older := by
  induction newer with
  | nil => exact h.1
  | cons x xs ih => exact ih h.2

theorem deleteDone_iff (s : State) : s.deleteDone = true ↔ 1 ∈ s.cancelled := by
  simp [State.deleteDone, delCtx, Context.done]

theorem fetchDone_iff (s : State) : s.fetchDone = true ↔ 0 ∈ s.cancelled := by
  simp [State.fetchDone, fetchCtx, Context.done]

theorem recvd_of_deleteCancelled (n : Nat) (pc : MainPc) (h : pc.deleteCancelled = true) :
    pc.recvd n = n := by
  cases pc <;> simp [MainPc.deleteCancelled] at h <;> rfl

theorem recvd_le (n : Nat) (pc : MainPc) (h : pc.bounded n) : pc.recvd n ≤ n := by
  cases pc <;> simp [MainPc.recvd] <;> exact h

/-- C1: in every reachable state of `main`, for every fetcher count and every
schedule, if the delete scope is cancelled then exactly `numFetchers`
completion signals have been received; the call of `cancelDelete` itself
comes after exactly that many receives, and never are more received. -/
theorem C1_delete_cancelled_after_all_signals (env : Env) (acts : List Action) (s : State)
    (h : exec env acts = some s) :
    (s.deleteDone = true → s.received = env.numFetchers) ∧
    (∀ newer older, s.trace = newer ++ Event.cancelDelete :: older →
      older.count .recv = env.numFetchers) ∧
    s.received ≤ env.numFetchers := by
  have inv := exec_inv env acts s h
  refine ⟨?_, ?_, ?_⟩
  · intro hd
    have hpc := inv.delCancelled.mp ((deleteDone_iff s).mp hd)
    rw [State.received, inv.recv]
    exact recvd_of_deleteCancelled _ _ hpc
  · intro newer older hsplit
    have ho := inv.ordered
    rw [hsplit] at ho
    exact ordered_split _ _ _ _ ho
  · rw [State.received, inv.recv]
    exact recvd_le _ _ inv.bounded

/-- C1 on a complete run of two fetchers: the delete scope ends cancelled with both
signals received. -/
theorem C1_delete_cancelled_after_all_signals_witness :
    exec env2 fullRun2 = some (stateAt env2 fullRun2) ∧
    (stateAt env2 fullRun2).deleteDone = true ∧
    (stateAt env2 fullRun2).received = 2 :=
  ⟨by decide, by decide,
    (C1_delete_cancelled_after_all_signals env2 fullRun2 (stateAt env2 fullRun2) (by decide)).1
      (by decide)⟩

theorem stepMain_deleteDone (env : Env) (s s' : State) (h : stepMain env s = some s')
    (hne : s'.deleteDone ≠ s.deleteDone) : s.mainPc = .cancelDelete := by
  obtain ⟨pc, ob, cs, nt, tm, cn, mw, hd, tr, hl⟩ := s
  unfold stepMain at h
  cases pc <;> simp only at h <;> (try split at h) <;>
    simp only [Option.some.injEq, reduceCtorEq] at h <;> subst h <;>
    first
    | rfl
    | exact absurd rfl hne

theorem stepObserver_deleteDone (s s' : State) (h : stepObserver s = some s') :
    s'.deleteDone = s.deleteDone := by
  obtain ⟨pc, ob, cs, nt, tm, cn, mw, hd, tr, hl⟩ := s
  unfold stepObserver at h
  cases ob <;> simp only at h <;> (try split at h) <;>
    simp only [Option.some.injEq, reduceCtorEq] at h <;> subst h <;>
    simp [State.deleteDone, delCtx, Context.done]

theorem stepObserver_cancelling (s s' : State) (h : stepObserver s = some s')
    (hc : s.observer = .cancelling) : s'.fetchDone = true := by
  obtain ⟨pc, ob, cs, nt, tm, cn, mw, hd, tr, hl⟩ := s
  simp only at hc
  subst hc
  simp only [stepObserver, Option.some.injEq] at h
  subst h
  simp [State.fetchDone, fetchCtx, Context.done]

theorem step_other_deleteDone (env : Env) (s s' : State) (a : Action)
    (h : step env s a = some s') (ha : a ≠ .main) : s'.deleteDone = s.deleteDone := by
  unfold step at h
  split at h
  · simp at h
  · cases a <;> simp only at h
    · exact absurd rfl ha
    · simp only [Option.some.injEq] at h
      subst h
      unfold stepSignal
      split
      · rfl
      · split
        · split <;> rfl
        · rfl
    · exact stepObserver_deleteDone s s' h
    · unfold stepConsumerStart at h
      split at h
      · simp only [Option.some.injEq] at h; subst h; rfl
      · simp at h
    · unfold stepRunReturn at h
      split at h
      · split at h
        · simp only [Option.some.injEq] at h; subst h; rfl
        · simp at h
      · simp at h
    · unfold stepHandoff at h
      split at h
      · split at h
        · simp only [Option.some.injEq] at h; subst h; rfl
        · simp at h
      · simp at h

/-- C2: a step of the interrupt observer leaves the delete scope as it was,
and its `cancelFetch()` step cancels the fetch scope; the two scopes are
distinct children of the background context, so marking one of them
cancelled never changes whether the other is done; and the only step
of the process that changes the delete scope is `cancelDelete()` of `main`. -/
theorem C2_fetch_cancel_leaves_delete_scope (env : Env) (s s' : State) (a : Action)
    (h : step env s a = some s') :
    (a = .observer → s'.deleteDone = s.deleteDone) ∧
    (a = .observer → s.observer = .cancelling → s'.fetchDone = true) ∧
    (∀ cancelled, delCtx.done (0 :: cancelled) = delCtx.done cancelled) ∧
    (∀ cancelled, fetchCtx.done (1 :: cancelled) = fetchCtx.done cancelled) ∧
    (s'.deleteDone ≠ s.deleteDone → a = .main ∧ s.mainPc = .cancelDelete) := by
  refine ⟨?_, ?_, ?_, ?_, ?_⟩
  · intro ha
    subst ha
    exact step_other_deleteDone env s s' _ h (by simp)
  · intro ha hc
    subst ha
    unfold step at h
    split at h
    · simp at h
    · exact stepObserver_cancelling s s' h hc
  · intro cancelled
    simp [delCtx, Context.done]
  · intro cancelled
    simp [fetchCtx, Context.done]
  · intro hne
    by_cases ha : a = .main
    · subst ha
      refine ⟨rfl, ?_⟩
      unfold step at h
      split at h
      · simp at h
      · exact stepMain_deleteDone env s s' h hne
    · exact absurd (step_other_deleteDone env s s' a h ha) hne

/-- C2 on the observer's `cancelFetch()` step of a run of one fetcher: the fetch scope
becomes cancelled and the delete scope stays live. -/
theorem C2_fetch_cancel_leaves_delete_scope_witness :
    step env1 (stateAt env1 beforeCancelFetch) .observer
      = some (stateAt env1 (beforeCancelFetch ++ [.observer])) ∧
    (stateAt env1 beforeCancelFetch).fetchDone = false ∧
    (stateAt env1 (beforeCancelFetch ++ [.observer])).fetchDone = true ∧
    (stateAt env1 (beforeCancelFetch ++ [.observer])).deleteDone = false :=
  ⟨by decide, by decide,
    (C2_fetch_cancel_leaves_delete_scope env1 (stateAt env1 beforeCancelFetch)
      (stateAt env1 (beforeCancelFetch ++ [.observer])) .observer (by decide)).2.1 rfl
      (by decide),
    ((C2_fetch_cancel_leaves_delete_scope env1 (stateAt env1 beforeCancelFetch)
      (stateAt env1 (beforeCancelFetch ++ [.observer])) .observer (by decide)).1 rfl).trans
      (by decide)⟩

/-- C7: however many signals are delivered, in every reachable state
`cancelFetch` has been called at most once; a further signal is always taken
(the process does not fail on it) and calls nothing, leaving the number of
`cancelFetch` calls and both scopes as they were; and the observer, once it
has called `cancelFetch`, takes no further step. -/
theorem C7_cancelFetch_at_most_once (env : Env) (acts : List Action) (s : State)
    (h : exec env acts = some s) :
    s.cancelFetchCalls ≤ 1 ∧
    (s.halted = none → ∀ sig, ∃ t, step env s (.signal sig) = some t ∧
      t.cancelFetchCalls = s.cancelFetchCalls ∧ t.fetchDone = s.fetchDone ∧
      t.deleteDone = s.deleteDone ∧ t.observer = s.observer) ∧
    (s.observer = .finished → step env s .observer = none) := by
  have inv := exec_inv env acts s h
  refine ⟨?_, ?_, ?_⟩
  · rw [State.cancelFetchCalls, inv.fetchCalls]
    split <;> simp
  · intro hh sig
    refine ⟨stepSignal s sig, by simp [step, hh], ?_⟩
    cases sig
    · simp only [stepSignal]
      split
      · split <;> exact ⟨rfl, rfl, rfl, rfl⟩
      · exact ⟨rfl, rfl, rfl, rfl⟩
    · exact ⟨rfl, rfl, rfl, rfl⟩
  · intro ho
    unfold step
    split
    · rfl
    · simp [stepObserver, ho]

/-- C7 on a complete run of two fetchers with three interrupts: `cancelFetch` was
called once. -/
theorem C7_cancelFetch_at_most_once_witness :
    exec env2 fullRun2 = some (stateAt env2 fullRun2) ∧
    (stateAt env2 fullRun2).cancelFetchCalls = 1 ∧
    (stateAt env2 fullRun2).cancelFetchCalls ≤ 1 :=
  ⟨by decide, by decide,
    (C7_cancelFetch_at_most_once env2 fullRun2 (stateAt env2 fullRun2) (by decide)).1⟩

theorem completeLogged_ret (pc : MainPc) (h : pc.completeLogged = true) : pc = .ret := by
  cases pc <;> simp [MainPc.completeLogged] at h ⊢

/-- C8 (as stated, refuted): in a complete run of one fetcher the interrupt
arrives after `main` has logged "Shutdown complete"; the observer then logs
"Starting graceful shutdown" and calls `cancelFetch`, and only then does
`main` return: the line is not the last action before the process returns. -/
theorem C8_counterexample :
    exec env1 lateInterruptRun = some (stateAt env1 lateInterruptRun) ∧
    (stateAt env1 lateInterruptRun).halted = some .returned ∧
    (stateAt env1 lateInterruptRun).trace.take 3
      = [.cancelFetch, .log startShutdownLine, .log shutdownCompleteLine] ∧
    (stateAt env1 lateInterruptRun).logLines
      = ["HTTP expvars on port 8123", "Starting queue consumers",
          "Shutdown complete", "Starting graceful shutdown"] := by
  decide

/-- C8 (amended): in every reachable state of `main`, every call of
`cancelFetch` comes after the line "Starting graceful shutdown" (so the fetch
scope is cancelled only once the line is logged); the line "Shutdown
complete" comes after all `numFetchers` completion signals have been received
and after `cancelDelete`; once it is logged, the only statement left to
`main` is its return, which ends the process; and the process returns from
`main` only after logging it.  Nothing is said of what the observer
goroutine does between that line and the return. -/
theorem C8_shutdown_milestones (env : Env) (acts : List Action) (s : State)
    (h : exec env acts = some s) :
    (∀ newer older, s.trace = newer ++ Event.cancelFetch :: older →
      Event.log startShutdownLine ∈ older) ∧
    (s.fetchDone = true → Event.log startShutdownLine ∈ s.trace) ∧
    (∀ newer older, s.trace = newer ++ Event.log shutdownCompleteLine :: older →
      older.count .recv = env.numFetchers ∧ Event.cancelDelete ∈ older) ∧
    (Event.log shutdownCompleteLine ∈ s.trace →
      s.received = env.numFetchers ∧ s.deleteDone = true ∧ s.mainPc = .ret ∧
      (s.halted = none → step env s .main = some { s with halted := some .returned })) ∧
    (s.halted = some .returned → Event.log shutdownCompleteLine ∈ s.trace) := by
  have inv := exec_inv env acts s h
  refine ⟨?_, ?_, ?_, ?_, ?_⟩
  · intro newer older hsplit
    have ho := inv.ordered
    rw [hsplit] at ho
    exact ordered_split _ _ _ _ ho
  · intro hf
    have hob := inv.fetchCancelled.mp ((fetchDone_iff s).mp hf)
    refine inv.startLogged.mpr ?_
    cases hs : s.observer <;> simp [hs, ObserverPc.cancelledFetch] at hob
    rfl
  · intro newer older hsplit
    have ho := inv.ordered
    rw [hsplit] at ho
    exact ordered_split _ _ _ _ ho rfl
  · intro hl
    have hpc := completeLogged_ret _ (inv.complete.mp hl)
    refine ⟨?_, ?_, hpc, ?_⟩
    · rw [State.received, inv.recv, hpc]; rfl
    · refine (deleteDone_iff s).mpr (inv.delCancelled.mpr ?_)
      rw [hpc]; rfl
    · intro hh
      simp [step, hh, stepMain, hpc]
  · intro hr
    refine inv.complete.mpr ?_
    rw [inv.returned hr]; rfl

/-- C8 (amended) on a complete run of two fetchers: the last line of `main` is
logged with both signals received. -/
theorem C8_shutdown_milestones_witness :
    exec env2 fullRun2 = some (stateAt env2 fullRun2) ∧
    Event.log shutdownCompleteLine ∈ (stateAt env2 fullRun2).trace ∧
    (stateAt env2 fullRun2).received = 2 :=
  ⟨by decide, by decide,
    ((C8_shutdown_milestones env2 fullRun2 (stateAt env2 fullRun2) (by decide)).2.2.2.1
      (by decide)).1⟩

theorem run_append (env : Env) (s : State) (xs ys : List Action) :
    run env s (xs ++ ys) = (run env s xs).bind fun t => run env t ys := by
  induction xs generalizing s with
  | nil => rfl
  | cons a rest ih =>
    simp only [List.cons_append, run]
    cases step env s a with
    | none => rfl
    | some t => simpa using ih t

theorem run_setup (env : Env) (hs : env.svcErr = none) :
    ∃ t, run env init (List.replicate 8 .main) = some t ∧ t.mainPc = .launch 0 ∧
      t.consumers = [] ∧ t.halted = none := by
  simp [List.replicate, run, step, stepMain, init, hs]

theorem run_launch (env : Env) (k : Nat) (s : State) (i : Nat) (hpc : s.mainPc = .launch i)
    (hh : s.halted = none) (hik : i + k = env.numFetchers) :
    ∃ t, run env s (List.replicate k .main) = some t ∧ t.mainPc = .launch env.numFetchers ∧
      t.consumers.length = s.consumers.length + k ∧ t.halted = none := by
  induction k generalizing s i with
  | zero =>
    refine ⟨s, rfl, ?_, rfl, hh⟩
    rw [hpc]
    simp at hik
    rw [hik]
  | succ k ih =>
    have hlt : i < env.numFetchers := by omega
    have hstep : step env s .main = some { s with
        consumers := s.consumers ++ [.spawned],
        trace := .spawn i :: s.trace,
        mainPc := .launch (i + 1) } := by
      simp [step, hh, stepMain, hpc, hlt]
    obtain ⟨t, ht, hpc', hlen, hh'⟩ := ih { s with
        consumers := s.consumers ++ [.spawned],
        trace := .spawn i :: s.trace,
        mainPc := .launch (i + 1) } (i + 1) rfl hh (by omega)
    refine ⟨t, ?_, hpc', ?_, hh'⟩
    · simp only [List.replicate_succ, run, hstep, Option.some_bind]
      exact ht
    · simp only [List.length_append, List.length_singleton] at hlen
      omega

/-- With a reachable queue, `main` running alone gets through the launch
loop: it arrives at the wait loop having launched exactly `numFetchers`
consumers. -/
theorem exec_toWait (env : Env) (hs : env.svcErr = none) :
    ∃ t, exec env (toWait env.numFetchers) = some t ∧ t.mainPc = .wait 0 ∧
      t.launched = env.numFetchers := by
  obtain ⟨t1, h1, hpc1, hc1, hh1⟩ := run_setup env hs
  obtain ⟨t2, h2, hpc2, hc2, hh2⟩ := run_launch env env.numFetchers t1 0 hpc1 hh1 (by simp)
  have hsplit : toWait env.numFetchers
      = List.replicate 8 .main ++ (List.replicate env.numFetchers .main ++ [.main]) := by
    simp only [toWait]
    rw [← List.replicate_succ', ← List.replicate_add]
    congr 1
    omega
  refine ⟨{ t2 with mainPc := .wait 0 }, ?_, rfl, ?_⟩
  · rw [exec, hsplit, run_append, h1, Option.some_bind, run_append, h2, Option.some_bind]
    simp [run, step, hh2, stepMain, hpc2]
  · simp [State.launched, hc2, hc1]

theorem spawnedCount_le (n : Nat) (pc : MainPc) (h : pc.bounded n) : pc.spawnedCount n ≤ n := by
  cases pc <;> simp [MainPc.spawnedCount] <;> exact h

theorem spawnedCount_pastLaunch (n : Nat) (pc : MainPc) (h : pc.pastLaunch = true) :
    pc.spawnedCount n = n := by
  cases pc <;> simp [MainPc.pastLaunch] at h <;> rfl

/-- C4: for every fetcher count, `main` never launches more than
`numFetchers` consumers and has launched exactly `numFetchers` once it is past
the launch loop, which it reaches when the queue is set up; the decorated
handler is composed at most once over the whole run and exactly once before
each launch; and every consumer running `Run` was built from that one
composed handler and the one queue service and runs on the fetch scope. -/
theorem C4_launches_exactly_numFetchers (env : Env) (acts : List Action) (s : State)
    (h : exec env acts = some s) :
    s.launched ≤ env.numFetchers ∧
    (s.mainPc.pastLaunch = true → s.launched = env.numFetchers) ∧
    (env.svcErr = none → ∃ t, exec env (toWait env.numFetchers) = some t ∧
      t.mainPc = .wait 0 ∧ t.launched = env.numFetchers) ∧
    s.composeCount ≤ 1 ∧
    (∀ newer older i, s.trace = newer ++ Event.spawn i :: older →
      older.countP Event.isCompose = 1) ∧
    (∀ h', Event.compose h' ∈ s.trace → h' = mainHandler env) ∧
    (∀ c ctx, ConsumerPc.running c ctx ∈ s.consumers →
      c = ⟨service, mainHandler env⟩ ∧ ctx = fetchCtx) := by
  have inv := exec_inv env acts s h
  refine ⟨?_, ?_, exec_toWait env, ?_, ?_, inv.composeEv, inv.consumers⟩
  · rw [State.launched, inv.launched]
    exact spawnedCount_le _ _ inv.bounded
  · intro hp
    rw [State.launched, inv.launched]
    exact spawnedCount_pastLaunch _ _ hp
  · rw [State.composeCount, inv.compose]
    split <;> simp
  · intro newer older i hsplit
    have ho := inv.ordered
    rw [hsplit] at ho
    exact ordered_split _ _ _ _ ho

/-- C4 on a complete run of two fetchers: two consumers launched, one composition. -/
theorem C4_launches_exactly_numFetchers_witness :
    exec env2 fullRun2 = some (stateAt env2 fullRun2) ∧
    (stateAt env2 fullRun2).mainPc.pastLaunch = true ∧
    (stateAt env2 fullRun2).launched = 2 ∧
    (stateAt env2 fullRun2).composeCount = 1 :=
  ⟨by decide, by decide,
    (C4_launches_exactly_numFetchers env2 fullRun2 (stateAt env2 fullRun2) (by decide)).2.1
      (by decide),
    by decide⟩

theorem forget_eq_spawned (x : ConsumerPc) : x.forget = .spawned ↔ x = .spawned := by
  cases x <;> simp [ConsumerPc.forget]

theorem forget_running (x : ConsumerPc) (c : Consumer) (ctx : Context) :
    x.forget = .running c ctx ↔ x = .running c ctx := by
  cases x <;> simp [ConsumerPc.forget]

theorem forget_sending (x : ConsumerPc) (e : Option String) :
    x.forget = .sending e → ∃ e', x = .sending e' := by
  cases x <;> simp [ConsumerPc.forget]

theorem stepMain_forget (env : Env) (s : State) :
    stepMain env s.forget = (stepMain env s).map State.forget := by
  obtain ⟨pc, ob, cs, nt, tm, cn, mw, hd, tr, hl⟩ := s
  unfold stepMain
  cases pc <;> simp only [State.forget] <;> (try split) <;>
    simp [State.forget, ConsumerPc.forget]

theorem stepObserver_forget (s : State) :
    stepObserver s.forget = (stepObserver s).map State.forget := by
  obtain ⟨pc, ob, cs, nt, tm, cn, mw, hd, tr, hl⟩ := s
  unfold stepObserver
  cases ob <;> simp only [State.forget] <;> (try split) <;> simp [State.forget]

theorem stepSignal_forget (s : State) (sig : Signal) :
    stepSignal s.forget sig = (stepSignal s sig).forget := by
  unfold stepSignal
  cases sig <;> simp only [State.forget]
  split
  · split <;> rfl
  · rfl

theorem stepConsumerStart_forget (s : State) (i : Nat) :
    stepConsumerStart s.forget i = (stepConsumerStart s i).map State.forget := by
  obtain ⟨pc, ob, cs, nt, tm, cn, mw, hd, tr, hl⟩ := s
  simp only [stepConsumerStart, State.forget, List.getElem?_map]
  cases h : cs[i]? with
  | none => simp
  | some x => cases x <;> cases hd <;> simp [State.forget, ConsumerPc.forget, List.map_set]

theorem stepHandoff_forget (env : Env) (s : State) (i : Nat) :
    stepHandoff env s.forget i = (stepHandoff env s i).map State.forget := by
  obtain ⟨pc, ob, cs, nt, tm, cn, mw, hd, tr, hl⟩ := s
  simp only [stepHandoff, State.forget, List.getElem?_map]
  cases h : cs[i]? with
  | none => cases pc <;> simp
  | some x =>
    cases x <;> cases pc <;> simp [ConsumerPc.forget, List.map_set] <;> split <;>
      simp [State.forget, ConsumerPc.forget, List.map_set]

theorem stepRunReturn_forget (s s' : State) (i : Nat) (e : Option String)
    (h : stepRunReturn s i e = some s') :
    s'.forget = { s.forget with consumers := s.forget.consumers.set i (.sending none) } := by
  unfold stepRunReturn at h
  split at h
  · split at h
    · simp only [Option.some.injEq] at h
      subst h
      simp [State.forget, ConsumerPc.forget, List.map_set]
    · simp at h
  · simp at h

theorem step_forget (env : Env) (s : State) (a : Action) (ha : a.forget = a) :
    step env s.forget a = (step env s a).map State.forget := by
  have hh : s.forget.halted = s.halted := rfl
  unfold step
  rw [hh]
  split
  · rfl
  · cases a <;> simp only
    · exact stepMain_forget env s
    · simp [stepSignal_forget]
    · exact stepObserver_forget s
    · exact stepConsumerStart_forget s _
    · rename_i i e
      cases e with
      | none =>
        obtain ⟨pc, ob, cs, nt, tm, cn, mw, hd, tr, hl⟩ := s
        simp only [stepRunReturn, State.forget, List.getElem?_map]
        cases h : cs[i]? with
        | none => simp
        | some x =>
          cases x <;> simp [ConsumerPc.forget, List.map_set] <;> split <;>
            simp [State.forget, ConsumerPc.forget, List.map_set]
      | some e => simp [Action.forget] at ha
    · exact stepHandoff_forget env s _

theorem step_runReturn_pair (env : Env) (s t s' t' : State) (i : Nat) (e e' : Option String)
    (hs : s.forget = t.forget)
    (h1 : step env s (.runReturn i e) = some s') (h2 : step env t (.runReturn i e') = some t') :
    s'.forget = t'.forget := by
  have hh1 : s.halted.isSome = false := by
    cases hx : s.halted.isSome
    · rfl
    · simp [step, hx] at h1
  have hh2 : t.halted.isSome = false := by
    cases hx : t.halted.isSome
    · rfl
    · simp [step, hx] at h2
  simp only [step, hh1, hh2] at h1 h2
  rw [stepRunReturn_forget s s' _ _ h1, stepRunReturn_forget t t' _ _ h2, hs]

theorem step_forget_pair (env : Env) (s t s' t' : State) (a b : Action)
    (hs : s.forget = t.forget) (hab : a.forget = b.forget)
    (h1 : step env s a = some s') (h2 : step env t b = some t') :
    s'.forget = t'.forget := by
  by_cases ha : a.forget = a
  · by_cases hb : b.forget = b
    · have hab' : a = b := by rw [← ha, ← hb, hab]
      subst hab'
      have e1 := step_forget env s a ha
      have e2 := step_forget env t a ha
      rw [h1] at e1
      rw [h2, ← hs, e1] at e2
      simpa using e2
    · cases b with
      | runReturn j e' =>
        have ha' : a = .runReturn j none := by rw [← ha, hab]; rfl
        subst ha'
        exact step_runReturn_pair env s t s' t' j none e' hs h1 h2
      | _ => exact absurd rfl hb
  · cases a with
    | runReturn i e =>
      cases b with
      | runReturn j e' =>
        simp only [Action.forget, Action.runReturn.injEq, and_true] at hab
        subst hab
        exact step_runReturn_pair env s t s' t' i e e' hs h1 h2
      | _ => simp [Action.forget] at hab
    | _ => exact absurd rfl ha

theorem run_forget_pair (env : Env) (acts acts' : List Action) (s t s' t' : State)
    (hs : s.forget = t.forget)
    (hacts : acts.map Action.forget = acts'.map Action.forget)
    (h1 : run env s acts = some s') (h2 : run env t acts' = some t') :
    s'.forget = t'.forget := by
  induction acts generalizing acts' s t with
  | nil =>
    cases acts' with
    | nil =>
      simp only [run, Option.some.injEq] at h1 h2
      rw [← h1, ← h2]
      exact hs
    | cons b rest' => simp at hacts
  | cons a rest ih =>
    cases acts' with
    | nil => simp at hacts
    | cons b rest' =>
      simp only [List.map_cons, List.cons.injEq] at hacts
      simp only [run] at h1 h2
      cases hsa : step env s a with
      | none => simp [hsa] at h1
      | some s1 =>
        cases htb : step env t b with
        | none => simp [htb] at h2
        | some t1 =>
          rw [hsa] at h1
          rw [htb] at h2
          exact ih rest' s1 t1 (step_forget_pair env s t s1 t1 a b hs hacts.1 hsa htb)
            hacts.2 h1 h2

/-- C3 (as stated, refuted): a run of one fetcher whose `Run` returns a
non-nil error and the same run with `Run` returning nil end with the same
overall result: the same way of ending, the same log lines, the same
scopes. -/
theorem C3_counterexample :
    (runWithOutcome (some "queue unreachable")).any Action.isErrorReturn = true ∧
    (runWithOutcome none).any Action.isErrorReturn = false ∧
    (exec env1 (runWithOutcome (some "queue unreachable"))).map overallResult
      = some (some .returned,
          ["HTTP expvars on port 8123", "Starting queue consumers",
            "Starting graceful shutdown", "Shutdown complete"], true, true) ∧
    (exec env1 (runWithOutcome (some "queue unreachable"))).map overallResult
      = (exec env1 (runWithOutcome none)).map overallResult := by
  decide

/-- C3 (amended): `main` receives every completion signal and drops its
value, so two runs whose schedules differ only in the errors returned by the
consumers' `Run` end with the same overall result (how the process ended, the
lines logged, both scopes) and the same number of signals received: the
overall result does not tell whether a consumer ended with an error. -/
theorem C3_overall_result_ignores_outcomes (env : Env) (acts acts' : List Action)
    (s s' : State) (h : exec env acts = some s) (h' : exec env acts' = some s')
    (hsame : acts.map Action.forget = acts'.map Action.forget) :
    overallResult s = overallResult s' ∧ s.received = s'.received := by
  have hf : s.forget = s'.forget := run_forget_pair env acts acts' init init s s' rfl hsame h h'
  have e1 : overallResult s = overallResult s.forget := rfl
  have e2 : overallResult s' = overallResult s'.forget := rfl
  have e3 : s.received = s.forget.received := rfl
  have e4 : s'.received = s'.forget.received := rfl
  rw [e1, e2, e3, e4, hf]
  exact ⟨rfl, rfl⟩

/-- C3 (amended) on the two runs of one fetcher that differ in the outcome of `Run`. -/
theorem C3_overall_result_ignores_outcomes_witness :
    exec env1 (runWithOutcome (some "queue unreachable"))
      = some (stateAt env1 (runWithOutcome (some "queue unreachable"))) ∧
    exec env1 (runWithOutcome none) = some (stateAt env1 (runWithOutcome none)) ∧
    overallResult (stateAt env1 (runWithOutcome (some "queue unreachable")))
      = overallResult (stateAt env1 (runWithOutcome none)) :=
  ⟨by decide, by decide,
    (C3_overall_result_ignores_outcomes env1 (runWithOutcome (some "queue unreachable"))
      (runWithOutcome none) _ _ (by decide) (by decide) (by decide)).1⟩

end SqsConsumer
